import Mathlib

/-!
Verification development for the blob-cache transport of
`vendor/github.com/containers/buildah/pkg/blobcache` (blobcache.go).

The Go code is a caching decorator over an arbitrary container-image
transport.  We give a shallow embedding:

* the filesystem is an association list from path to file state, where a
  file state is either its byte content or a marker meaning that any
  `stat`/`open` of that path fails with an error that is not "not found";
* the wrapped (inner) source/destination is abstracted by oracle
  parameters giving the result of each inner call;
* Go's `(value, error)` multiple returns are modelled as `Except` or as a
  `value × Option GoErr` pair, matching each function's use;
* `errors.Wrapf(err, ctx)` is modelled by `GoErr.wrapped ctx err` when
  `err` is non-nil, and (as in the pkg/errors library) yields nil when
  `err` is nil.
-/

/-- A content digest, the string form `digest.Digest.String()` produces. -/
abbrev Digest := String

/-- Model of `types.BlobInfo`, restricted to the fields the blob cache reads:
`Digest` and `Size` (−1 means unknown). -/
structure BlobInfo where
  digest : Digest
  size : Int
deriving DecidableEq

/-- Go error values as the blob cache produces them: a raw filesystem
error at a path, an opaque error from the wrapped transport, a message
built by `errors.Errorf`, or `errors.Wrapf context err`. -/
inductive GoErr
  | osErr (path : String)
  | innerFail (code : Nat)
  | errMsg (msg : String)
  | wrapped (context : String) (err : GoErr)
deriving DecidableEq

/-- The state of one path in the modelled filesystem: either a regular
file with the given bytes, or a path whose `stat`/`open` fails with an
error that is not "not found" (permission denied, I/O failure, ...). -/
inductive FileState
  | file (content : List Nat)
  | errEntry
deriving DecidableEq

/-- The filesystem: an association list from path to file state.  A path
with no entry does not exist (`stat`/`open` gives "not found"). -/
abbrev FS := List (String × FileState)

/-- First-match lookup of a path. -/
def lookupFile : FS → String → Option FileState
  | [], _ => none
  | (n, st) :: rest, name => if name = n then some st else lookupFile rest name

/-- Remove every binding of a path. -/
def eraseFile : FS → String → FS
  | [], _ => []
  | (n, st) :: rest, name =>
      if n = name then eraseFile rest name else (n, st) :: eraseFile rest name

/-- Create or overwrite a path with the given state. -/
def setFile (fs : FS) (name : String) (st : FileState) : FS :=
  (name, st) :: eraseFile fs name

/-- Model of `os.Rename src dst`: move the state at `src` to `dst`.  In the code
paths modelled here the source always exists, so no failure is modelled;
a missing source leaves the filesystem unchanged. -/
def renameFile (fs : FS) (src dst : String) : FS :=
  match lookupFile fs src with
  | some st => setFile (eraseFile fs src) dst st
  | none => fs

/-- Outcome of one filesystem call: success, "not found", or any other
error (the distinction `os.IsNotExist` draws). -/
inductive IOOutcome (α : Type)
  | ok (val : α)
  | notExist
  | otherErr
deriving DecidableEq

/-- Model of `os.Stat`, reduced to the size the cache compares against. -/
def statSize (fs : FS) (name : String) : IOOutcome Int :=
  match lookupFile fs name with
  | some (.file c) => .ok (c.length : Int)
  | some .errEntry => .otherErr
  | none => .notExist

/-- Model of `os.Open` followed by reading the whole file (`ioutil.ReadFile`). -/
def openRead (fs : FS) (name : String) : IOOutcome (List Nat) :=
  match lookupFile fs name with
  | some (.file c) => .ok c
  | some .errEntry => .otherErr
  | none => .notExist

/-- Model of `filepath.Join dir name`, for the shapes that occur here: `dir` is a
cleaned path without a trailing slash and `name` is a digest-derived
filename containing no separator.  Go's `Join` drops empty components
and `Clean` turns a leading `./` into nothing, so an empty or `.`
directory yields `name` itself. -/
def joinPath (dir name : String) : String :=
  if dir = "" then name else if dir = "." then name else dir ++ "/" ++ name

/-- Embedding of `makeFilename` from blobcache.go: a config blob's filename appends
".config" to the digest, a layer blob (or manifest) uses the digest. -/
def makeFilename (blobSum : Digest) (isConfig : Bool) : String :=
  if isConfig then blobSum ++ ".config" else blobSum

/-- Embedding of `blobCacheReference`, restricted to the field the cached operations
read: the ordered list of cache directories.  (The wrapped inner
reference and the transport pointer are abstracted by the oracle
parameters of each operation.) -/
structure blobCacheReference where
  directories : List String
deriving DecidableEq

/-- The candidate cache filenames `HasBlob`/`GetBlob` probe, in exactly
the order of the Go loops: directories in configured order, and within
each directory the plain (`isConfig=false`) name then the `.config`
(`isConfig=true`) name. -/
def candidates (directories : List String) (dg : Digest) : List String :=
  directories.flatMap fun dir =>
    [joinPath dir (makeFilename dg false), joinPath dir (makeFilename dg true)]

/-- Wrap context used by `HasBlob` ("error checking size of %q"). -/
def checkSizeCtx : String := "error checking size"

/-- The candidate loop of `blobCacheReference.HasBlob`.  For each
candidate filename the Go code runs

  fileInfo, err := os.Stat(filename)
  if err == nil && (blobinfo.Size == -1 || blobinfo.Size == fileInfo.Size()) \x7b
    return true, fileInfo.Size(), nil
  \x7d
  if !os.IsNotExist(err) \x7b
    return false, -1, errors.Wrapf(err, "error checking size of %q", filename)
  \x7d

Note the subtlety in the size-mismatch case: `err` is nil there, and
`os.IsNotExist(nil)` is false, so the second `if` fires and returns
`false, -1, errors.Wrapf(nil, ...)`, which is `false, -1, nil` because
pkg/errors `Wrapf` returns nil for a nil error.  So an existing
candidate whose size mismatches ends the whole scan with a silent miss;
only a "not found" continues to the next candidate. -/
def hasBlobScan (fs : FS) (size : Int) : List String → Except GoErr (Bool × Int)
  | [] => .ok (false, -1)
  | name :: rest =>
      match statSize fs name with
      | .ok fsize =>
          if size = -1 ∨ size = fsize then .ok (true, fsize)
          else .ok (false, -1)
      | .otherErr => .error (.wrapped checkSizeCtx (.osErr name))
      | .notExist => hasBlobScan fs size rest

/-- Embedding of `blobCacheReference.HasBlob`: an empty digest is always absent;
otherwise scan the candidate filenames. -/
def HasBlob (r : blobCacheReference) (fs : FS) (blobinfo : BlobInfo) :
    Except GoErr (Bool × Int) :=
  if blobinfo.digest = "" then .ok (false, -1)
  else hasBlobScan fs blobinfo.size (candidates r.directories blobinfo.digest)

/-- Wrap context used by `GetManifest` ("error checking for manifest file %q"). -/
def manifestFileCtx : String := "error checking for manifest file"

/-- The directory loop of `blobCacheSource.GetManifest` for a given
instance digest: read `dir/<digest>` in each directory; on success
return the bytes with `manifest.GuessMIMEType` applied to them; a read
error other than "not found" is wrapped and surfaced; "not found" moves
to the next directory; when every directory misses, fall back to the
inner source's result. -/
def getManifestScan (fs : FS) (guessMIME : List Nat → String)
    (fallbackRes : Except GoErr (List Nat × String)) :
    List String → Except GoErr (List Nat × String)
  | [] => fallbackRes
  | name :: rest =>
      match openRead fs name with
      | .ok m => .ok (m, guessMIME m)
      | .otherErr => .error (.wrapped manifestFileCtx (.osErr name))
      | .notExist => getManifestScan fs guessMIME fallbackRes rest

/-- Embedding of `blobCacheSource.GetManifest`: with no instance digest, delegate
directly to the inner source; with one, probe the cache directories in
order under the plain digest filename.  `guessMIME` abstracts
`manifest.GuessMIMEType`; `innerGet` abstracts the inner source's
`GetManifest`, applied to the same instance-digest argument.  The read
path performs no filesystem writes. -/
def GetManifest (r : blobCacheReference) (fs : FS)
    (guessMIME : List Nat → String)
    (innerGet : Option Digest → Except GoErr (List Nat × String))
    (instanceDigest : Option Digest) : Except GoErr (List Nat × String) :=
  match instanceDigest with
  | some dg =>
      getManifestScan fs guessMIME (innerGet (some dg))
        (r.directories.map fun dir => joinPath dir (makeFilename dg false))
  | none => innerGet none

/-- Wrap context used by `GetBlob`'s fallback fetch
("error reading blob from source image %q"). -/
def readBlobCtx : String := "error reading blob from source image"

/-- Wrap context used by `GetBlob`'s open loop
("error checking for cache file %q"). -/
def checkCacheFileCtx : String := "error checking for cache file"

/-- The tail of `blobCacheSource.GetBlob`: fetch from the inner source,
wrapping a non-nil error. -/
def sourceFetch (innerGet : Except GoErr (List Nat × Int)) :
    Except GoErr (List Nat × Int) :=
  match innerGet with
  | .ok v => .ok v
  | .error e => .error (.wrapped readBlobCtx e)

/-- The open loop of `blobCacheSource.GetBlob` once `HasBlob` reported
present with size `size`: open each candidate; on success return its
bytes with the size `HasBlob` reported; an open error other than "not
found" is wrapped and surfaced; otherwise continue, and after the last
candidate fall through to the inner fetch. -/
def getBlobScan (fs : FS) (size : Int)
    (fallbackRes : Except GoErr (List Nat × Int)) :
    List String → Except GoErr (List Nat × Int)
  | [] => fallbackRes
  | name :: rest =>
      match openRead fs name with
      | .ok bytes => .ok (bytes, size)
      | .otherErr => .error (.wrapped checkCacheFileCtx (.osErr name))
      | .notExist => getBlobScan fs size fallbackRes rest

/-- Embedding of `blobCacheSource.GetBlob`.  The Go code stats the candidates (inside
`HasBlob`) and then opens them; between the two the filesystem can be
changed by others, so the embedding takes the state at stat time
(`fsStat`) and at open time (`fsOpen`) separately — they coincide when
nothing intervenes.  `innerGet` abstracts the inner source's `GetBlob`
for this descriptor. -/
def GetBlob (r : blobCacheReference) (fsStat fsOpen : FS)
    (innerGet : Except GoErr (List Nat × Int)) (blobinfo : BlobInfo) :
    Except GoErr (List Nat × Int) :=
  match HasBlob r fsStat blobinfo with
  | .error e => .error e
  | .ok (present, size) =>
      if present then
        getBlobScan fsOpen size (sourceFetch innerGet)
          (candidates r.directories blobinfo.digest)
      else sourceFetch innerGet

/-- Wrap context used by `PutBlob` on an inner write failure
("error storing blob to image destination for cache %q"). -/
def putBlobStoreCtx : String := "error storing blob to image destination for cache"

/-- The observable steps of one `blobCacheDestination.PutBlob` run, in
the order they happen: temporary-file creation, the tee writing into the
temporary file while the inner destination reads the stream, the inner
`PutBlob` returning, and finally (from the deferred function) either the
rename onto the canonical cache filename or the removal of the
temporary file. -/
inductive PutEvent
  | createTemp (name : String)
  | teeWrite (name : String)
  | innerPutReturned (success : Bool)
  | renameTemp (src dst : String)
  | removeTemp (name : String)
deriving DecidableEq

/-- Everything one `blobCacheDestination.PutBlob` run produces: the
`(BlobInfo, error)` pair returned to the caller, the filesystem after
the run, whether the stream variable was replaced by a tee reader, and
the event trace. -/
structure PutBlobResult where
  info : BlobInfo
  err : Option GoErr
  fs : FS
  teed : Bool
  trace : List PutEvent
deriving DecidableEq

/-- Embedding of `blobCacheDestination.PutBlob`.

* `tempName` is the outcome of `ioutil.TempFile(directory, ...)`: `some t`
  when a temporary file named `t` was created, `none` when creation
  failed (that failure is only logged).
* `innerPutBlob` abstracts the inner destination's `PutBlob`; a tee
  reader yields exactly the bytes of the underlying stream, so the inner
  call receives `stream` whether or not it was tee'd.
* On inner success the tee has written the whole stream to the temporary
  file and the deferred function renames it onto the canonical filename
  (`os.Rename` is modelled as succeeding; the model's filesystem writes
  do not fail — a failing cache write surfaces as an inner read error
  through the tee, i.e. as `innerPutBlob` failing).  On inner failure
  the deferred function removes the temporary file instead.
* The returned pair is in every branch the inner destination's pair,
  with a non-nil error wrapped; the deferred function's assignments to
  `err` cannot change it, because the Go function's return values are
  unnamed and are fixed before the deferred function runs. -/
def PutBlob (r : blobCacheReference) (fs : FS) (stream : List Nat)
    (inputInfo : BlobInfo) (isConfig : Bool) (tempName : Option String)
    (innerPutBlob : List Nat → BlobInfo → Bool → BlobInfo × Option GoErr) :
    PutBlobResult :=
  let inner := innerPutBlob stream inputInfo isConfig
  if inputInfo.digest = "" then
    { info := inner.1, err := inner.2.map (.wrapped putBlobStoreCtx),
      fs := fs, teed := false,
      trace := [.innerPutReturned inner.2.isNone] }
  else
    match tempName with
    | some t =>
        let directory := r.directories.headD ""
        let directory := if directory = "" then "." else directory
        let filename := joinPath directory (makeFilename inputInfo.digest isConfig)
        match inner.2 with
        | none =>
            { info := inner.1, err := none,
              fs := renameFile (setFile fs t (.file stream)) t filename,
              teed := true,
              trace := [.createTemp t, .teeWrite t, .innerPutReturned true,
                        .renameTemp t filename] }
        | some e =>
            { info := inner.1, err := some (.wrapped putBlobStoreCtx e),
              fs := eraseFile (setFile fs t (.file stream)) t,
              teed := true,
              trace := [.createTemp t, .teeWrite t, .innerPutReturned false,
                        .removeTemp t] }
    | none =>
        { info := inner.1, err := inner.2.map (.wrapped putBlobStoreCtx),
          fs := fs, teed := false,
          trace := [.innerPutReturned inner.2.isNone] }

/-- Wrap context used by `ReapplyBlob`'s inner existence check
("error checking for blob %q in cache %#v"). -/
def reapplyCheckCtx : String := "error checking for blob in cache"

/-- The candidate filenames with their `isConfig` flags, in the order
`ReapplyBlob` scans them: directories in configured order, plain variant
then `.config` variant. -/
def candidatesWithFlags (directories : List String) (dg : Digest) :
    List (String × Bool) :=
  directories.flatMap fun dir =>
    [(joinPath dir (makeFilename dg false), false),
     (joinPath dir (makeFilename dg true), true)]

/-- The cache scan of `ReapplyBlob`: return the first candidate that
opens, with its bytes and `isConfig` flag.  The Go loop only acts when
`os.Open` succeeds — any open error, "not found" or otherwise, just
moves on to the next candidate. -/
def reapplyScan (fs : FS) : List (String × Bool) → Option (List Nat × Bool)
  | [] => none
  | (name, isConfig) :: rest =>
      match openRead fs name with
      | .ok bytes => some (bytes, isConfig)
      | .otherErr => reapplyScan fs rest
      | .notExist => reapplyScan fs rest

/-- Embedding of `blobCacheDestination.ReapplyBlob`.  Here `innerHasBlob`, `innerPutBlob`
and `innerReapply` abstract the inner destination's `HasBlob` result
(its `(present, size, error)` triple, with the unused size dropped), its
`PutBlob`, and its `ReapplyBlob` result for this descriptor.  The Go
code first checks the inner destination; an error there is wrapped and
returned with a zero `BlobInfo`.  If the inner destination lacks the
blob, the first openable cached candidate is fed to the inner
destination's `PutBlob` (with that candidate's `isConfig` flag), and its
pair is returned as-is.  Otherwise — inner has it, or nothing opened —
delegate to the inner destination's own `ReapplyBlob`. -/
def ReapplyBlob (r : blobCacheReference) (fs : FS)
    (innerHasBlob : Bool × Option GoErr)
    (innerPutBlob : List Nat → BlobInfo → Bool → BlobInfo × Option GoErr)
    (innerReapply : BlobInfo × Option GoErr) (info : BlobInfo) :
    BlobInfo × Option GoErr :=
  match innerHasBlob with
  | (_, some e) => (⟨"", 0⟩, some (.wrapped reapplyCheckCtx e))
  | (present, none) =>
      if present then innerReapply
      else
        match reapplyScan fs (candidatesWithFlags r.directories info.digest) with
        | some (bytes, isConfig) => innerPutBlob bytes info isConfig
        | none => innerReapply

/-! ## Go slices for the construction invariant

`NewBlobCache` stores `append([]string\x7b\x7d, directories...)` — a copy of the
caller's slice into a fresh backing array — and `Directories()` returns
such a copy again on every call.  To state that caller-side mutation
cannot change the cache's directory list, slices are modelled with an
explicit heap: a slice value is the identifier of its backing array, the
heap maps identifiers to contents, mutation writes one element in place
through an identifier, and a copy allocates a fresh identifier. -/

/-- Identifier of a slice's backing array. -/
abbrev SliceId := Nat

/-- The backing store: identifier to contents. -/
abbrev SliceCells := List (SliceId × List String)

/-- First-match lookup of a backing array. -/
def lookupCell : SliceCells → SliceId → Option (List String)
  | [], _ => none
  | (j, c) :: rest, sid => if sid = j then some c else lookupCell rest sid

/-- In-place update of element `i` of the backing array `sid`. -/
def updateCells : SliceCells → SliceId → Nat → String → SliceCells
  | [], _, _, _ => []
  | (j, c) :: rest, sid, i, v =>
      if sid = j then (j, c.set i v) :: rest
      else (j, c) :: updateCells rest sid i v

/-- The slice heap, with a fresh-identifier counter. -/
structure SliceHeap where
  cells : SliceCells
  next : SliceId
deriving DecidableEq

/-- The contents a slice identifier denotes (a missing identifier reads
as the nil slice). -/
def SliceHeap.read (h : SliceHeap) (sid : SliceId) : List String :=
  (lookupCell h.cells sid).getD []

/-- Every allocated identifier is below the counter. -/
def SliceHeap.valid (h : SliceHeap) : Prop :=
  ∀ p ∈ h.cells, p.1 < h.next

/-- Allocate a fresh backing array holding `content`. -/
def SliceHeap.alloc (h : SliceHeap) (content : List String) :
    SliceId × SliceHeap :=
  (h.next, ⟨(h.next, content) :: h.cells, h.next + 1⟩)

/-- Caller-side mutation: `s[i] = v` through slice `sid`. -/
def SliceHeap.writeIdx (h : SliceHeap) (sid : SliceId) (i : Nat) (v : String) :
    SliceHeap :=
  ⟨updateCells h.cells sid i v, h.next⟩

/-- Model of `append([]string\x7b\x7d, xs...)`: copy a slice's contents into a fresh
backing array. -/
def SliceHeap.copySlice (h : SliceHeap) (sid : SliceId) : SliceId × SliceHeap :=
  h.alloc (h.read sid)

/-- Embedding of `blobCacheReference` at the heap level: the stored directory slice. -/
structure blobCacheReferenceH where
  directoriesId : SliceId
deriving DecidableEq

/-- The message of the `errors.Errorf` that `NewBlobCache` returns for an
empty directory list. -/
def noCacheDirMsg : String := "error building cache: no cache directory specified"

/-- Embedding of `NewBlobCache` over the slice heap: reject an empty directory list
with an error and no cache object; otherwise store a defensive copy of
the caller's slice (`append([]string\x7b\x7d, directories...)`). -/
def NewBlobCache (h : SliceHeap) (directories : SliceId) :
    Except GoErr (blobCacheReferenceH × SliceHeap) :=
  if (h.read directories).length = 0 then .error (.errMsg noCacheDirMsg)
  else
    let alloc := h.copySlice directories
    .ok (⟨alloc.1⟩, alloc.2)

/-- Embedding of `blobCacheReference.Directories`: return a fresh copy of the stored
slice (`append([]string\x7b\x7d, r.directories...)`). -/
def Directories (h : SliceHeap) (r : blobCacheReferenceH) :
    SliceId × SliceHeap :=
  h.copySlice r.directoriesId

/-! ## Helper lemmas about the filesystem model -/

theorem lookupFile_eraseFile_self (fs : FS) (n : String) :
    lookupFile (eraseFile fs n) n = none := by
  induction fs with
  | nil => rfl
  | cons p rest ih =>
      obtain ⟨a, st⟩ := p
      by_cases h : a = n
      · simpa [eraseFile, h] using ih
      · have hna : ¬n = a := fun e => h e.symm
        simp [eraseFile, h, lookupFile, hna, ih]

theorem lookupFile_eraseFile_ne (fs : FS) (n m : String) (h : m ≠ n) :
    lookupFile (eraseFile fs n) m = lookupFile fs m := by
  induction fs with
  | nil => rfl
  | cons p rest ih =>
      obtain ⟨a, st⟩ := p
      by_cases ha : a = n
      · subst ha
        simp [eraseFile, lookupFile, h, ih]
      · by_cases hm : m = a <;> simp [eraseFile, lookupFile, ha, hm, ih]

theorem lookupFile_setFile_self (fs : FS) (n : String) (st : FileState) :
    lookupFile (setFile fs n st) n = some st := by
  simp [setFile, lookupFile]

theorem lookupFile_setFile_ne (fs : FS) (n m : String) (st : FileState)
    (h : m ≠ n) : lookupFile (setFile fs n st) m = lookupFile fs m := by
  simp [setFile, lookupFile, h, lookupFile_eraseFile_ne fs n m h]

theorem eraseFile_eraseFile (fs : FS) (n : String) :
    eraseFile (eraseFile fs n) n = eraseFile fs n := by
  induction fs with
  | nil => rfl
  | cons p rest ih =>
      obtain ⟨a, st⟩ := p
      by_cases h : a = n <;> simp [eraseFile, h, ih]

theorem eraseFile_setFile (fs : FS) (n : String) (st : FileState) :
    eraseFile (setFile fs n st) n = eraseFile fs n := by
  simp [setFile, eraseFile, eraseFile_eraseFile]

/-- The filesystem after a successful `PutBlob` cache population: write
the temporary file, then rename it onto the canonical filename. -/
theorem renameFile_setFile (fs : FS) (t filename : String) (st : FileState) :
    renameFile (setFile fs t st) t filename =
      setFile (eraseFile fs t) filename st := by
  simp [renameFile, lookupFile_setFile_self, eraseFile_setFile]

theorem lookupFile_putFS_none (fs : FS) (t filename m : String)
    (st : FileState) (h : lookupFile fs m = none) (hne : m ≠ filename) :
    lookupFile (setFile (eraseFile fs t) filename st) m = none := by
  rw [lookupFile_setFile_ne _ _ _ _ hne]
  by_cases hmt : m = t
  · subst hmt
    exact lookupFile_eraseFile_self fs m
  · rw [lookupFile_eraseFile_ne fs t m hmt]
    exact h

/-! ## Helper lemmas about paths and filenames -/

theorem joinPath_dirSubst (d x : String) :
    joinPath (if d = "" then "." else d) x = joinPath d x := by
  by_cases h : d = "" <;> simp [joinPath, h]

theorem joinPath_ne_of_length_ne (d x y : String) (h : x.length ≠ y.length) :
    joinPath d x ≠ joinPath d y := by
  intro e
  apply h
  unfold joinPath at e
  have hslash : ("/" : String).length = 1 := rfl
  split_ifs at e
  · exact congrArg String.length e
  · exact congrArg String.length e
  · have he := congrArg String.length e
    rw [String.length_append, String.length_append, String.length_append,
      String.length_append, hslash] at he
    omega

theorem makeFilename_length (dg : Digest) :
    (makeFilename dg true).length = dg.length + 7 ∧
      (makeFilename dg false).length = dg.length := by
  have hcfg : (".config" : String).length = 7 := rfl
  constructor
  · show (dg ++ ".config").length = dg.length + 7
    rw [String.length_append, hcfg]
  · rfl

theorem joinPath_makeFilename_ne (d : String) (dg : Digest) :
    joinPath d (makeFilename dg false) ≠ joinPath d (makeFilename dg true) := by
  apply joinPath_ne_of_length_ne
  rw [(makeFilename_length dg).1, (makeFilename_length dg).2]
  omega

/-! ## Helper lemmas about the scans -/

theorem getBlobScan_of_all_none (fs : FS) (sz : Int)
    (fb : Except GoErr (List Nat × Int)) (names : List String)
    (h : ∀ n ∈ names, lookupFile fs n = none) :
    getBlobScan fs sz fb names = fb := by
  induction names with
  | nil => rfl
  | cons n rest ih =>
      have hn : lookupFile fs n = none := h n (by simp)
      simp [getBlobScan, openRead, hn]
      exact ih fun m hm => h m (by simp [hm])

theorem getManifestScan_of_all_none (fs : FS) (guessMIME : List Nat → String)
    (fb : Except GoErr (List Nat × String)) (names : List String)
    (h : ∀ n ∈ names, lookupFile fs n = none) :
    getManifestScan fs guessMIME fb names = fb := by
  induction names with
  | nil => rfl
  | cons n rest ih =>
      have hn : lookupFile fs n = none := h n (by simp)
      simp [getManifestScan, openRead, hn]
      exact ih fun m hm => h m (by simp [hm])

/-! ## Helper lemmas about the slice heap -/

theorem lookupCell_some_mem (cells : SliceCells) (sid : SliceId)
    (c : List String) (h : lookupCell cells sid = some c) : (sid, c) ∈ cells := by
  induction cells with
  | nil => simp [lookupCell] at h
  | cons p rest ih =>
      obtain ⟨j, cc⟩ := p
      by_cases hj : sid = j
      · subst hj
        simp [lookupCell] at h
        simp [h]
      · simp [lookupCell, hj] at h
        exact List.mem_cons_of_mem _ (ih h)

theorem lookupCell_updateCells_ne (cells : SliceCells) (sid sid' : SliceId)
    (i : Nat) (v : String) (h : sid' ≠ sid) :
    lookupCell (updateCells cells sid i v) sid' = lookupCell cells sid' := by
  induction cells with
  | nil => rfl
  | cons p rest ih =>
      obtain ⟨j, c⟩ := p
      by_cases hj : sid = j
      · subst hj
        simp [updateCells, lookupCell, h]
      · simp [updateCells, lookupCell, hj, ih]

theorem read_writeIdx_ne (h : SliceHeap) (sid sid' : SliceId) (i : Nat)
    (v : String) (hne : sid' ≠ sid) :
    (h.writeIdx sid i v).read sid' = h.read sid' := by
  simp [SliceHeap.writeIdx, SliceHeap.read,
    lookupCell_updateCells_ne h.cells sid sid' i v hne]

theorem read_alloc_self (h : SliceHeap) (c : List String) :
    (h.alloc c).2.read (h.alloc c).1 = c := by
  simp [SliceHeap.alloc, SliceHeap.read, lookupCell]

theorem valid_lt_of_read_ne_nil (h : SliceHeap) (hv : h.valid) (sid : SliceId)
    (hne : h.read sid ≠ []) : sid < h.next := by
  unfold SliceHeap.read at hne
  cases hl : lookupCell h.cells sid with
  | none => simp [hl] at hne
  | some c => exact hv _ (lookupCell_some_mem _ _ _ hl)

/-! ## Claim theorems -/

/-- C7: `NewBlobCache` rejects every empty directory list with an error
and no cache object; on success the stored directory list is a copy of
the caller's slice taken at construction, and `Directories` returns a
fresh copy on each call, so mutating the supplied slice or a returned
slice never changes the directories the cache reads. -/
theorem blobcache_C7_construction :
    (∀ (h : SliceHeap) (dirs : SliceId), h.read dirs = [] →
        NewBlobCache h dirs = .error (.errMsg noCacheDirMsg)) ∧
    (∀ (h : SliceHeap) (dirs : SliceId), h.valid → h.read dirs ≠ [] →
        ∃ (r : blobCacheReferenceH) (h' : SliceHeap),
          NewBlobCache h dirs = .ok (r, h') ∧
          h'.read r.directoriesId = h.read dirs ∧
          r.directoriesId ≠ dirs ∧
          (∀ (i : Nat) (v : String),
            (h'.writeIdx dirs i v).read r.directoriesId
              = h'.read r.directoriesId) ∧
          ((Directories h' r).2.read (Directories h' r).1
              = h'.read r.directoriesId ∧
            (Directories h' r).1 ≠ r.directoriesId ∧
            ∀ (i : Nat) (v : String),
              ((Directories h' r).2.writeIdx (Directories h' r).1 i v).read
                  r.directoriesId
                = (Directories h' r).2.read r.directoriesId)) := by
  constructor
  · intro h dirs hz
    simp [NewBlobCache, hz]
  · intro h dirs hv hne
    have hlt : dirs < h.next := valid_lt_of_read_ne_nil h hv dirs hne
    refine ⟨⟨h.next⟩, (h.copySlice dirs).2, ?_, ?_, ?_, ?_, ?_, ?_, ?_⟩
    · simp [NewBlobCache, List.length_eq_zero, hne, SliceHeap.copySlice,
        SliceHeap.alloc]
    · exact read_alloc_self h (h.read dirs)
    · show h.next ≠ dirs
      exact Nat.ne_of_gt hlt
    · intro i v
      exact read_writeIdx_ne (h.copySlice dirs).2 dirs h.next i v
        (Nat.ne_of_gt hlt)
    · exact read_alloc_self _ _
    · show (h.copySlice dirs).2.next ≠ h.next
      simp [SliceHeap.copySlice, SliceHeap.alloc]
    · intro i v
      refine read_writeIdx_ne _ _ h.next i v ?_
      show h.next ≠ h.next + 1
      exact Nat.ne_of_lt (Nat.lt_succ_self h.next)

/-- Witness for C7 at a concrete heap holding one slice `["a"]`. -/
theorem blobcache_C7_construction_witness :
    ∃ (r : blobCacheReferenceH) (h' : SliceHeap),
      NewBlobCache ⟨[(0, ["a"])], 1⟩ 0 = .ok (r, h') ∧
      h'.read r.directoriesId = SliceHeap.read ⟨[(0, ["a"])], 1⟩ 0 ∧
      r.directoriesId ≠ 0 ∧
      (∀ (i : Nat) (v : String),
        (h'.writeIdx 0 i v).read r.directoriesId = h'.read r.directoriesId) ∧
      ((Directories h' r).2.read (Directories h' r).1
          = h'.read r.directoriesId ∧
        (Directories h' r).1 ≠ r.directoriesId ∧
        ∀ (i : Nat) (v : String),
          ((Directories h' r).2.writeIdx (Directories h' r).1 i v).read
              r.directoriesId
            = (Directories h' r).2.read r.directoriesId) :=
  blobcache_C7_construction.2 ⟨[(0, ["a"])], 1⟩ 0
    (by unfold SliceHeap.valid; decide) (by decide)

/-- C2 counterexample: with cache directories `a` then `b`, a file `a/d`
of size 5 and a file `b/d` of size 7, a `HasBlob` for digest `d` with
requested size 7 reports absent (with no error) — the scan stops at the
size-mismatching candidate in the first directory and never reaches the
matching file in the second directory, contradicting the claim that it
keeps scanning and reports present. -/
theorem blobcache_C2_counterexample :
    HasBlob ⟨["a", "b"]⟩
        [("a/d", .file [0, 0, 0, 0, 0]), ("b/d", .file [0, 0, 0, 0, 0, 0, 0])]
        ⟨"d", 7⟩
      = .ok (false, -1) ∧
    statSize
        [("a/d", .file [0, 0, 0, 0, 0]), ("b/d", .file [0, 0, 0, 0, 0, 0, 0])]
        "b/d"
      = .ok 7 :=
  ⟨rfl, rfl⟩

/-- C2 (amended): `HasBlob` scans the candidate filenames in configured
order (each directory's plain name then its `.config` name); a
"not found" moves to the next candidate; a candidate that exists with
matching size (or with the requested size unknown) yields present with
the file's size; a candidate that exists with a mismatched size ends the
scan immediately, reporting absent with no error and without probing any
remaining variant or directory; any other stat error is surfaced
wrapped; an exhausted scan, or an empty digest, reports absent with no
error. -/
theorem blobcache_C2_amended :
    (∀ (fs : FS) (sz : Int), hasBlobScan fs sz [] = .ok (false, -1)) ∧
    (∀ (fs : FS) (sz : Int) (n : String) (rest : List String),
        statSize fs n = .notExist →
        hasBlobScan fs sz (n :: rest) = hasBlobScan fs sz rest) ∧
    (∀ (fs : FS) (sz : Int) (n : String) (rest : List String) (m : Int),
        statSize fs n = .ok m → (sz = -1 ∨ sz = m) →
        hasBlobScan fs sz (n :: rest) = .ok (true, m)) ∧
    (∀ (fs : FS) (sz : Int) (n : String) (rest : List String) (m : Int),
        statSize fs n = .ok m → sz ≠ -1 → sz ≠ m →
        hasBlobScan fs sz (n :: rest) = .ok (false, -1)) ∧
    (∀ (fs : FS) (sz : Int) (n : String) (rest : List String),
        statSize fs n = .otherErr →
        hasBlobScan fs sz (n :: rest)
          = .error (.wrapped checkSizeCtx (.osErr n))) ∧
    (∀ (r : blobCacheReference) (fs : FS) (blobinfo : BlobInfo),
        blobinfo.digest ≠ "" →
        HasBlob r fs blobinfo
          = hasBlobScan fs blobinfo.size
              (candidates r.directories blobinfo.digest)) ∧
    (∀ (r : blobCacheReference) (fs : FS) (blobinfo : BlobInfo),
        blobinfo.digest = "" → HasBlob r fs blobinfo = .ok (false, -1)) := by
  refine ⟨fun fs sz => rfl, ?_, ?_, ?_, ?_, ?_, ?_⟩
  · intro fs sz n rest h
    simp [hasBlobScan, h]
  · intro fs sz n rest m h hsz
    simp [hasBlobScan, h, hsz]
  · intro fs sz n rest m h hsz1 hsz2
    simp [hasBlobScan, h, hsz1, hsz2]
  · intro fs sz n rest h
    simp [hasBlobScan, h]
  · intro r fs blobinfo h
    simp [HasBlob, h]
  · intro r fs blobinfo h
    simp [HasBlob, h]

/-- Witness for the amended C2: the mismatch case at a concrete cache
(file of size 1, requested size 5) stops the scan with a silent miss. -/
theorem blobcache_C2_amended_witness :
    hasBlobScan [("a/d", FileState.file [0])] 5 ["a/d", "b/d"]
      = .ok (false, -1) :=
  blobcache_C2_amended.2.2.2.1 [("a/d", FileState.file [0])] 5 "a/d" ["b/d"] 1
    rfl (by decide) (by decide)

/-- C3: the pair `PutBlob` returns is in every case the inner
destination's `PutBlob` outcome — the `BlobInfo` unchanged and the error
wrapped with context when non-nil — whatever the cache-population side
effects did (temporary-file creation failure, tee failure surfacing as
an inner error, rename on the success path): a cache-population failure
never turns a successful inner write into an error. -/
theorem blobcache_C3_inner_authoritative (r : blobCacheReference) (fs : FS)
    (stream : List Nat) (inputInfo : BlobInfo) (isConfig : Bool)
    (tempName : Option String)
    (innerPutBlob : List Nat → BlobInfo → Bool → BlobInfo × Option GoErr) :
    (PutBlob r fs stream inputInfo isConfig tempName innerPutBlob).info
        = (innerPutBlob stream inputInfo isConfig).1 ∧
    (PutBlob r fs stream inputInfo isConfig tempName innerPutBlob).err
        = ((innerPutBlob stream inputInfo isConfig).2).map
            (GoErr.wrapped putBlobStoreCtx) := by
  unfold PutBlob
  by_cases hd : inputInfo.digest = ""
  · simp [hd]
  · cases tempName with
    | none => simp [hd]
    | some t =>
        cases he : (innerPutBlob stream inputInfo isConfig).2 with
        | none => simp [hd, he]
        | some e => simp [hd, he]

/-- C9: a `PutBlob` whose descriptor carries an empty digest leaves the
filesystem untouched, creates no temporary file, and forwards the stream
to the inner destination without installing a tee. -/
theorem blobcache_C9_anonymous_blob (r : blobCacheReference) (fs : FS)
    (stream : List Nat) (inputInfo : BlobInfo) (isConfig : Bool)
    (tempName : Option String)
    (innerPutBlob : List Nat → BlobInfo → Bool → BlobInfo × Option GoErr)
    (hd : inputInfo.digest = "") :
    (PutBlob r fs stream inputInfo isConfig tempName innerPutBlob).fs = fs ∧
    (PutBlob r fs stream inputInfo isConfig tempName innerPutBlob).teed
      = false ∧
    (PutBlob r fs stream inputInfo isConfig tempName innerPutBlob).trace
      = [.innerPutReturned
          ((innerPutBlob stream inputInfo isConfig).2).isNone] ∧
    (∀ t, PutEvent.createTemp t
        ∉ (PutBlob r fs stream inputInfo isConfig tempName innerPutBlob).trace)
    := by
  unfold PutBlob
  simp [hd]

/-- Witness for C9: a concrete anonymous blob write. -/
theorem blobcache_C9_anonymous_blob_witness :
    (PutBlob ⟨["a"]⟩ [] [1, 2] ⟨"", 2⟩ false (some "a/tmp0")
        (fun _ _ _ => (⟨"d", 2⟩, none))).fs = [] ∧
    (PutBlob ⟨["a"]⟩ [] [1, 2] ⟨"", 2⟩ false (some "a/tmp0")
        (fun _ _ _ => (⟨"d", 2⟩, none))).teed = false ∧
    (PutBlob ⟨["a"]⟩ [] [1, 2] ⟨"", 2⟩ false (some "a/tmp0")
        (fun _ _ _ => (⟨"d", 2⟩, none))).trace
      = [.innerPutReturned (Option.isNone
          (((fun (_ : List Nat) (_ : BlobInfo) (_ : Bool) =>
              ((⟨"d", 2⟩ : BlobInfo), (none : Option GoErr))) [1, 2] ⟨"", 2⟩
              false).2))] ∧
    (∀ t, PutEvent.createTemp t
        ∉ (PutBlob ⟨["a"]⟩ [] [1, 2] ⟨"", 2⟩ false (some "a/tmp0")
            (fun _ _ _ => (⟨"d", 2⟩, none))).trace) :=
  blobcache_C9_anonymous_blob ⟨["a"]⟩ [] [1, 2] ⟨"", 2⟩ false (some "a/tmp0")
    (fun _ _ _ => (⟨"d", 2⟩, none)) rfl

/-- C5: `ReapplyBlob`'s three steps.  An error from the inner
destination's `HasBlob` is wrapped and returned with a zero `BlobInfo`;
if the inner destination reports the blob present, the call delegates to
the inner destination's `ReapplyBlob`; if absent, the cache candidates
are scanned in order (directories in configured order, plain then
`.config` variant) and the first openable file's bytes are fed to the
inner destination's `PutBlob`, whose result is returned; only when no
candidate opens does the call fall through to the inner `ReapplyBlob`. -/
theorem blobcache_C5_reapply_algorithm :
    (∀ (r : blobCacheReference) (fs : FS)
        (innerPutBlob : List Nat → BlobInfo → Bool → BlobInfo × Option GoErr)
        (innerReapply : BlobInfo × Option GoErr) (info : BlobInfo)
        (present : Bool) (e : GoErr),
        ReapplyBlob r fs (present, some e) innerPutBlob innerReapply info
          = (⟨"", 0⟩, some (.wrapped reapplyCheckCtx e))) ∧
    (∀ (r : blobCacheReference) (fs : FS)
        (innerPutBlob : List Nat → BlobInfo → Bool → BlobInfo × Option GoErr)
        (innerReapply : BlobInfo × Option GoErr) (info : BlobInfo),
        ReapplyBlob r fs (true, none) innerPutBlob innerReapply info
          = innerReapply) ∧
    (∀ (r : blobCacheReference) (fs : FS)
        (innerPutBlob : List Nat → BlobInfo → Bool → BlobInfo × Option GoErr)
        (innerReapply : BlobInfo × Option GoErr) (info : BlobInfo),
        ReapplyBlob r fs (false, none) innerPutBlob innerReapply info
          = match reapplyScan fs (candidatesWithFlags r.directories info.digest)
              with
            | some (bytes, isConfig) => innerPutBlob bytes info isConfig
            | none => innerReapply) ∧
    (∀ (dir : String) (rest : List String) (dg : Digest),
        candidatesWithFlags (dir :: rest) dg
          = (joinPath dir (makeFilename dg false), false)
              :: (joinPath dir (makeFilename dg true), true)
              :: candidatesWithFlags rest dg) ∧
    (∀ (fs : FS) (name : String) (isConfig : Bool)
        (rest : List (String × Bool)) (bytes : List Nat),
        openRead fs name = .ok bytes →
        reapplyScan fs ((name, isConfig) :: rest) = some (bytes, isConfig)) ∧
    (∀ (fs : FS) (name : String) (isConfig : Bool)
        (rest : List (String × Bool)),
        openRead fs name ≠ .ok [] →
        (∀ bytes, openRead fs name ≠ .ok bytes) →
        reapplyScan fs ((name, isConfig) :: rest) = reapplyScan fs rest) := by
  refine ⟨?_, ?_, ?_, ?_, ?_, ?_⟩
  · intro r fs innerPutBlob innerReapply info present e
    rfl
  · intro r fs innerPutBlob innerReapply info
    rfl
  · intro r fs innerPutBlob innerReapply info
    rfl
  · intro dir rest dg
    rfl
  · intro fs name isConfig rest bytes h
    simp [reapplyScan, h]
  · intro fs name isConfig rest _ h
    cases ho : openRead fs name with
    | ok bytes => exact absurd ho (h bytes)
    | notExist => simp [reapplyScan, ho]
    | otherErr => simp [reapplyScan, ho]

/-- Witness for C5: with the inner destination lacking the blob and the
cache holding only the `.config` variant, the cached bytes are fed to
the inner `PutBlob` with `isConfig = true`. -/
theorem blobcache_C5_reapply_algorithm_witness :
    ReapplyBlob ⟨["a"]⟩ [("a/d.config", FileState.file [9])] (false, none)
        (fun bytes i c => (⟨i.digest, (bytes.length : Int) + (if c then 100 else 0)⟩, none))
        (⟨"r", 0⟩, none) ⟨"d", 1⟩
      = (⟨"d", 101⟩, none) :=
  (blobcache_C5_reapply_algorithm.2.2.1 ⟨["a"]⟩
      [("a/d.config", FileState.file [9])]
      (fun bytes i c => (⟨i.digest, (bytes.length : Int) + (if c then 100 else 0)⟩, none))
      (⟨"r", 0⟩, none) ⟨"d", 1⟩).trans (by decide)

/-- C6: `GetManifest` with no instance digest never consults the cache
and delegates to the inner source; with an instance digest the cache
directories are probed in order under the plain digest filename, a hit
returns the cached bytes with a MIME type sniffed from those bytes, and
a miss in every directory delegates to the inner source.  The embedding
performs no filesystem writes (the function returns no filesystem). -/
theorem blobcache_C6_manifest_gating :
    (∀ (r : blobCacheReference) (fs : FS) (guessMIME : List Nat → String)
        (innerGet : Option Digest → Except GoErr (List Nat × String)),
        GetManifest r fs guessMIME innerGet none = innerGet none) ∧
    (∀ (r : blobCacheReference) (fs : FS) (guessMIME : List Nat → String)
        (innerGet : Option Digest → Except GoErr (List Nat × String))
        (dg : Digest),
        (∀ d ∈ r.directories,
          lookupFile fs (joinPath d (makeFilename dg false)) = none) →
        GetManifest r fs guessMIME innerGet (some dg) = innerGet (some dg)) ∧
    (∀ (d : String) (rest : List String) (fs : FS)
        (guessMIME : List Nat → String)
        (innerGet : Option Digest → Except GoErr (List Nat × String))
        (dg : Digest) (m : List Nat),
        lookupFile fs (joinPath d (makeFilename dg false)) = some (.file m) →
        GetManifest ⟨d :: rest⟩ fs guessMIME innerGet (some dg)
          = .ok (m, guessMIME m)) ∧
    (∀ (d : String) (rest : List String) (fs : FS)
        (guessMIME : List Nat → String)
        (innerGet : Option Digest → Except GoErr (List Nat × String))
        (dg : Digest),
        lookupFile fs (joinPath d (makeFilename dg false)) = none →
        GetManifest ⟨d :: rest⟩ fs guessMIME innerGet (some dg)
          = GetManifest ⟨rest⟩ fs guessMIME innerGet (some dg)) := by
  refine ⟨fun r fs guessMIME innerGet => rfl, ?_, ?_, ?_⟩
  · intro r fs guessMIME innerGet dg h
    unfold GetManifest
    apply getManifestScan_of_all_none
    intro n hn
    simp at hn
    obtain ⟨d, hd, rfl⟩ := hn
    exact h d hd
  · intro d rest fs guessMIME innerGet dg m h
    simp [GetManifest, getManifestScan, openRead, h]
  · intro d rest fs guessMIME innerGet dg h
    simp [GetManifest, getManifestScan, openRead, h]

/-- Witness for C6: a concrete cache hit sniffs the cached bytes. -/
theorem blobcache_C6_manifest_gating_witness :
    GetManifest ⟨["a"]⟩ [("a/m", FileState.file [1, 2])]
        (fun bytes => if bytes.length = 2 then "list" else "plain")
        (fun _ => .error (.innerFail 0)) (some "m")
      = .ok ([1, 2], "list") :=
  (blobcache_C6_manifest_gating.2.2.1 "a" [] [("a/m", FileState.file [1, 2])]
      (fun bytes => if bytes.length = 2 then "list" else "plain")
      (fun _ => .error (.innerFail 0)) "m" [1, 2] rfl).trans rfl

/-- C10: when `HasBlob` (over the filesystem at stat time) reports the
blob present but every candidate has vanished by open time, `GetBlob`
silently falls back to the inner source's fetch (its error wrapped);
an open error other than "not found" is surfaced instead. -/
theorem blobcache_C10_vanished_entry (r : blobCacheReference)
    (fsStat fsOpen : FS) (innerGet : Except GoErr (List Nat × Int))
    (blobinfo : BlobInfo) (sz : Int)
    (hpresent : HasBlob r fsStat blobinfo = .ok (true, sz)) :
    ((∀ n ∈ candidates r.directories blobinfo.digest,
        lookupFile fsOpen n = none) →
      GetBlob r fsStat fsOpen innerGet blobinfo = sourceFetch innerGet) ∧
    (∀ (n : String) (rest : List String),
        candidates r.directories blobinfo.digest = n :: rest →
        lookupFile fsOpen n = some .errEntry →
        GetBlob r fsStat fsOpen innerGet blobinfo
          = .error (.wrapped checkCacheFileCtx (.osErr n))) := by
  constructor
  · intro h
    unfold GetBlob
    rw [hpresent]
    simp only [if_pos rfl]
    exact getBlobScan_of_all_none fsOpen sz (sourceFetch innerGet) _ h
  · intro n rest hc h
    unfold GetBlob
    rw [hpresent]
    simp only [if_pos rfl]
    rw [hc]
    simp [getBlobScan, openRead, h]

/-- Witness for C10: the entry present at stat time is gone at open
time, and the inner source's stream is returned. -/
theorem blobcache_C10_vanished_entry_witness :
    GetBlob ⟨["a"]⟩ [("a/d", FileState.file [5])] [] (.ok ([9, 9], 2))
        ⟨"d", 1⟩
      = sourceFetch (.ok ([9, 9], 2)) :=
  (blobcache_C10_vanished_entry ⟨["a"]⟩ [("a/d", FileState.file [5])] []
      (.ok ([9, 9], 2)) ⟨"d", 1⟩ 1 rfl).1 (fun _ _ => rfl)

/-- The filesystem after a `PutBlob` with a digest, a created temporary
file and a successful inner write: the canonical cache filename in the
first directory holds the streamed bytes (written via the temporary file
and renamed into place). -/
theorem PutBlob_fs_success (r : blobCacheReference) (d0 : String)
    (rest : List String) (hdirs : r.directories = d0 :: rest) (fs : FS)
    (stream : List Nat) (inputInfo : BlobInfo) (isConfig : Bool) (t : String)
    (innerPutBlob : List Nat → BlobInfo → Bool → BlobInfo × Option GoErr)
    (hd : inputInfo.digest ≠ "")
    (hinner : (innerPutBlob stream inputInfo isConfig).2 = none) :
    (PutBlob r fs stream inputInfo isConfig (some t) innerPutBlob).fs
      = setFile (eraseFile fs t)
          (joinPath d0 (makeFilename inputInfo.digest isConfig))
          (.file stream) := by
  simp [PutBlob, hd, hinner, hdirs, renameFile_setFile, joinPath_dirSubst]

/-- C4: in every `PutBlob` run that opens a temporary file, the rename
onto the canonical cache filename is the last event of the trace and
happens only in runs where the tee write and the inner destination's
`PutBlob` succeeded; when the inner write fails the trace ends by
removing the temporary file — no rename occurs — and the canonical cache
filename is left exactly as it was, so no cache entry ever appears under
the canonical name for a blob the inner destination rejected. -/
theorem blobcache_C4_rename_ordering (r : blobCacheReference) (fs : FS)
    (stream : List Nat) (inputInfo : BlobInfo) (isConfig : Bool) (t : String)
    (innerPutBlob : List Nat → BlobInfo → Bool → BlobInfo × Option GoErr)
    (hd : inputInfo.digest ≠ "")
    (ht : t ≠ joinPath (r.directories.headD "")
        (makeFilename inputInfo.digest isConfig)) :
    ((innerPutBlob stream inputInfo isConfig).2 = none →
      (PutBlob r fs stream inputInfo isConfig (some t) innerPutBlob).trace
        = [.createTemp t, .teeWrite t, .innerPutReturned true,
            .renameTemp t (joinPath (r.directories.headD "")
              (makeFilename inputInfo.digest isConfig))]) ∧
    (∀ e, (innerPutBlob stream inputInfo isConfig).2 = some e →
      (PutBlob r fs stream inputInfo isConfig (some t) innerPutBlob).trace
        = [.createTemp t, .teeWrite t, .innerPutReturned false,
            .removeTemp t] ∧
      lookupFile
          (PutBlob r fs stream inputInfo isConfig (some t) innerPutBlob).fs
          (joinPath (r.directories.headD "")
            (makeFilename inputInfo.digest isConfig))
        = lookupFile fs (joinPath (r.directories.headD "")
            (makeFilename inputInfo.digest isConfig))) := by
  constructor
  · intro hok
    simp [PutBlob, hd, hok, joinPath_dirSubst]
  · intro e he
    constructor
    · simp [PutBlob, hd, he]
    · simp only [PutBlob, hd, he, if_neg hd]
      rw [eraseFile_setFile]
      exact lookupFile_eraseFile_ne fs t _ (Ne.symm ht)

/-- Witness for C4: a concrete successful run renames the temporary file
onto `a/d` after the inner write returns; a concrete rejected run
removes the temporary file and leaves `a/d` absent. -/
theorem blobcache_C4_rename_ordering_witness :
    (PutBlob ⟨["a"]⟩ [] [7] ⟨"d", 2⟩ false (some "a/dtmp1")
        (fun _ _ _ => (⟨"d", 1⟩, none))).trace
      = [.createTemp "a/dtmp1", .teeWrite "a/dtmp1", .innerPutReturned true,
          .renameTemp "a/dtmp1" "a/d"] ∧
    (PutBlob ⟨["a"]⟩ [] [7] ⟨"d", 2⟩ false (some "a/dtmp1")
        (fun _ _ _ => (⟨"", 0⟩, some (.innerFail 3)))).trace
      = [.createTemp "a/dtmp1", .teeWrite "a/dtmp1", .innerPutReturned false,
          .removeTemp "a/dtmp1"] ∧
    lookupFile (PutBlob ⟨["a"]⟩ [] [7] ⟨"d", 2⟩ false (some "a/dtmp1")
        (fun _ _ _ => (⟨"", 0⟩, some (.innerFail 3)))).fs "a/d" = none := by
  refine ⟨?_, ?_, ?_⟩
  · exact ((blobcache_C4_rename_ordering ⟨["a"]⟩ [] [7] ⟨"d", 2⟩ false
      "a/dtmp1" (fun _ _ _ => (⟨"d", 1⟩, none)) (by decide) (by decide)).1
        rfl).trans (by decide)
  · exact ((blobcache_C4_rename_ordering ⟨["a"]⟩ [] [7] ⟨"d", 2⟩ false
      "a/dtmp1" (fun _ _ _ => (⟨"", 0⟩, some (.innerFail 3))) (by decide)
        (by decide)).2 (.innerFail 3) rfl).1
  · exact (((blobcache_C4_rename_ordering ⟨["a"]⟩ [] [7] ⟨"d", 2⟩ false
      "a/dtmp1" (fun _ _ _ => (⟨"", 0⟩, some (.innerFail 3))) (by decide)
        (by decide)).2 (.innerFail 3) rfl).2).trans rfl

/-- C1: write-then-read round trip.  A blob `B` with non-empty digest
`D`, written through the cached destination's `PutBlob` (temporary file
created, inner write successful) into a cache whose first directory
holds no entry yet under either filename variant of `D`, is afterwards
reported present by `HasBlob` (for a descriptor with digest `D` and
unknown or matching size) with `B`'s size, and `GetBlob` on that
descriptor returns exactly `B`'s bytes. -/
theorem blobcache_C1_round_trip (d0 : String) (rest : List String) (fs : FS)
    (B : List Nat) (D : Digest) (szPut s : Int) (isConfig : Bool) (t : String)
    (innerPutBlob : List Nat → BlobInfo → Bool → BlobInfo × Option GoErr)
    (innerGet : Except GoErr (List Nat × Int))
    (hD : D ≠ "")
    (hinner : (innerPutBlob B ⟨D, szPut⟩ isConfig).2 = none)
    (hplain : lookupFile fs (joinPath d0 (makeFilename D false)) = none)
    (hs : s = -1 ∨ s = (B.length : Int)) :
    HasBlob ⟨d0 :: rest⟩
        (PutBlob ⟨d0 :: rest⟩ fs B ⟨D, szPut⟩ isConfig (some t)
          innerPutBlob).fs ⟨D, s⟩
      = .ok (true, (B.length : Int)) ∧
    GetBlob ⟨d0 :: rest⟩
        (PutBlob ⟨d0 :: rest⟩ fs B ⟨D, szPut⟩ isConfig (some t)
          innerPutBlob).fs
        (PutBlob ⟨d0 :: rest⟩ fs B ⟨D, szPut⟩ isConfig (some t)
          innerPutBlob).fs
        innerGet ⟨D, s⟩
      = .ok (B, (B.length : Int)) := by
  have hfs := PutBlob_fs_success ⟨d0 :: rest⟩ d0 rest rfl fs B ⟨D, szPut⟩
    isConfig t innerPutBlob hD hinner
  rw [hfs]
  have hcand : candidates (d0 :: rest) D
      = joinPath d0 (makeFilename D false)
          :: joinPath d0 (makeFilename D true) :: candidates rest D := by
    simp [candidates]
  have hself :
      lookupFile
          (setFile (eraseFile fs t)
            (joinPath d0 (makeFilename D isConfig)) (.file B))
          (joinPath d0 (makeFilename D isConfig))
        = some (.file B) := lookupFile_setFile_self _ _ _
  cases isConfig with
  | false =>
      have hHas : HasBlob ⟨d0 :: rest⟩
          (setFile (eraseFile fs t)
            (joinPath d0 (makeFilename D false)) (.file B)) ⟨D, s⟩
          = .ok (true, (B.length : Int)) := by
        unfold HasBlob
        rw [if_neg hD, hcand]
        unfold hasBlobScan
        rw [show statSize
            (setFile (eraseFile fs t)
              (joinPath d0 (makeFilename D false)) (.file B))
            (joinPath d0 (makeFilename D false))
            = .ok (B.length : Int) by simp [statSize, hself]]
        simp [if_pos hs]
      refine ⟨hHas, ?_⟩
      unfold GetBlob
      rw [hHas]
      simp only [if_pos rfl, hcand]
      unfold getBlobScan
      rw [show openRead
          (setFile (eraseFile fs t)
            (joinPath d0 (makeFilename D false)) (.file B))
          (joinPath d0 (makeFilename D false))
          = .ok B by simp [openRead, hself]]
      simp
  | true =>
      have hmiss :
          lookupFile
              (setFile (eraseFile fs t)
                (joinPath d0 (makeFilename D true)) (.file B))
              (joinPath d0 (makeFilename D false))
            = none :=
        lookupFile_putFS_none fs t _ _ _ hplain (joinPath_makeFilename_ne d0 D)
      have hHas : HasBlob ⟨d0 :: rest⟩
          (setFile (eraseFile fs t)
            (joinPath d0 (makeFilename D true)) (.file B)) ⟨D, s⟩
          = .ok (true, (B.length : Int)) := by
        unfold HasBlob
        rw [if_neg hD, hcand]
        unfold hasBlobScan
        rw [show statSize
            (setFile (eraseFile fs t)
              (joinPath d0 (makeFilename D true)) (.file B))
            (joinPath d0 (makeFilename D false))
            = .notExist by simp [statSize, hmiss]]
        unfold hasBlobScan
        rw [show statSize
            (setFile (eraseFile fs t)
              (joinPath d0 (makeFilename D true)) (.file B))
            (joinPath d0 (makeFilename D true))
            = .ok (B.length : Int) by simp [statSize, hself]]
        simp [if_pos hs]
      refine ⟨hHas, ?_⟩
      unfold GetBlob
      rw [hHas]
      simp only [if_pos rfl, hcand]
      unfold getBlobScan
      rw [show openRead
          (setFile (eraseFile fs t)
            (joinPath d0 (makeFilename D true)) (.file B))
          (joinPath d0 (makeFilename D false))
          = .notExist by simp [openRead, hmiss]]
      unfold getBlobScan
      rw [show openRead
          (setFile (eraseFile fs t)
            (joinPath d0 (makeFilename D true)) (.file B))
          (joinPath d0 (makeFilename D true))
          = .ok B by simp [openRead, hself]]
      simp

/-- Witness for C1: a concrete config blob written and read back. -/
theorem blobcache_C1_round_trip_witness :
    HasBlob ⟨["a"]⟩
        (PutBlob ⟨["a"]⟩ [] [3, 4] ⟨"d", 2⟩ true (some "a/d.configtmp")
          (fun _ _ _ => (⟨"d", 2⟩, none))).fs ⟨"d", 2⟩
      = .ok (true, 2) ∧
    GetBlob ⟨["a"]⟩
        (PutBlob ⟨["a"]⟩ [] [3, 4] ⟨"d", 2⟩ true (some "a/d.configtmp")
          (fun _ _ _ => (⟨"d", 2⟩, none))).fs
        (PutBlob ⟨["a"]⟩ [] [3, 4] ⟨"d", 2⟩ true (some "a/d.configtmp")
          (fun _ _ _ => (⟨"d", 2⟩, none))).fs
        (.error (.innerFail 1)) ⟨"d", 2⟩
      = .ok ([3, 4], 2) := by
  have h := blobcache_C1_round_trip "a" [] [] [3, 4] "d" 2 2 true
    "a/d.configtmp" (fun _ _ _ => (⟨"d", 2⟩, none)) (.error (.innerFail 1))
    (by decide) rfl rfl (Or.inr rfl)
  exact ⟨h.1.trans rfl, h.2.trans rfl⟩

/-- C8: `makeFilename` is injective in the `isConfig` flag for every
fixed digest — the config filename appends ".config" — and therefore a
layer blob and a config blob sharing digest `D`, written one after the
other through `PutBlob` (each populating the cache successfully), end up
under two distinct files in the first cache directory, each file holding
its own bytes. -/
theorem blobcache_C8_non_aliasing (d0 : String) (rest : List String)
    (fs : FS) (B1 B2 : List Nat) (D : Digest) (sz1 sz2 : Int)
    (t1 t2 : String)
    (inner1 inner2 : List Nat → BlobInfo → Bool → BlobInfo × Option GoErr)
    (hD : D ≠ "")
    (hinner1 : (inner1 B1 ⟨D, sz1⟩ false).2 = none)
    (hinner2 : (inner2 B2 ⟨D, sz2⟩ true).2 = none)
    (ht2 : t2 ≠ joinPath d0 (makeFilename D false)) :
    (∀ dg : Digest, makeFilename dg true ≠ makeFilename dg false) ∧
    lookupFile
        (PutBlob ⟨d0 :: rest⟩
          (PutBlob ⟨d0 :: rest⟩ fs B1 ⟨D, sz1⟩ false (some t1) inner1).fs
          B2 ⟨D, sz2⟩ true (some t2) inner2).fs
        (joinPath d0 (makeFilename D false)) = some (.file B1) ∧
    lookupFile
        (PutBlob ⟨d0 :: rest⟩
          (PutBlob ⟨d0 :: rest⟩ fs B1 ⟨D, sz1⟩ false (some t1) inner1).fs
          B2 ⟨D, sz2⟩ true (some t2) inner2).fs
        (joinPath d0 (makeFilename D true)) = some (.file B2) := by
  have hfs1 := PutBlob_fs_success ⟨d0 :: rest⟩ d0 rest rfl fs B1 ⟨D, sz1⟩
    false t1 inner1 hD hinner1
  have hfs2 := PutBlob_fs_success ⟨d0 :: rest⟩ d0 rest rfl
    (PutBlob ⟨d0 :: rest⟩ fs B1 ⟨D, sz1⟩ false (some t1) inner1).fs
    B2 ⟨D, sz2⟩ true t2 inner2 hD hinner2
  rw [hfs2, hfs1]
  refine ⟨?_, ?_, ?_⟩
  · intro dg e
    have hlen := congrArg String.length e
    rw [(makeFilename_length dg).1, (makeFilename_length dg).2] at hlen
    omega
  · rw [lookupFile_setFile_ne _ _ _ _ (joinPath_makeFilename_ne d0 D)]
    rw [lookupFile_eraseFile_ne _ _ _ (Ne.symm ht2)]
    exact lookupFile_setFile_self _ _ _
  · exact lookupFile_setFile_self _ _ _

/-- Witness for C8: a layer blob `[1]` and a config blob `[2, 2]` with
the same digest coexist under `a/d` and `a/d.config`. -/
theorem blobcache_C8_non_aliasing_witness :
    makeFilename "d" true ≠ makeFilename "d" false ∧
    lookupFile
        (PutBlob ⟨["a"]⟩
          (PutBlob ⟨["a"]⟩ [] [1] ⟨"d", 1⟩ false (some "a/dtmpA")
            (fun _ _ _ => (⟨"d", 1⟩, none))).fs
          [2, 2] ⟨"d", 2⟩ true (some "a/d.configtmpB")
          (fun _ _ _ => (⟨"d", 2⟩, none))).fs "a/d"
      = some (.file [1]) ∧
    lookupFile
        (PutBlob ⟨["a"]⟩
          (PutBlob ⟨["a"]⟩ [] [1] ⟨"d", 1⟩ false (some "a/dtmpA")
            (fun _ _ _ => (⟨"d", 1⟩, none))).fs
          [2, 2] ⟨"d", 2⟩ true (some "a/d.configtmpB")
          (fun _ _ _ => (⟨"d", 2⟩, none))).fs "a/d.config"
      = some (.file [2, 2]) := by
  have h := blobcache_C8_non_aliasing "a" [] [] [1] [2, 2] "d" 1 2 "a/dtmpA"
    "a/d.configtmpB" (fun _ _ _ => (⟨"d", 1⟩, none))
    (fun _ _ _ => (⟨"d", 2⟩, none)) (by decide) rfl rfl (by decide)
  exact ⟨h.1 "d", h.2.1.trans rfl, h.2.2.trans rfl⟩
